import Mathlib

/-!
Verification development for the `ai-patch-doctor` repository.

The definitions below are a shallow embedding, translated from the Python
sources:
- `python/src/ai_patch/fixer.py` (the `Fix`/`FixResult` data model,
  `CodeFixer.apply_fixes`, `CodeFixer._apply_fix`,
  `CodeFixer._find_source_files`);
- `python/src/ai_patch/code_scanner.py` (`CodeScanner.scan`,
  `CodeScanner._check_python_api_call`, `CodeScanner._get_call_name`,
  the retry-loop rule of `CodeScanner._analyze_python_patterns`);
- `python/checks/streaming.py`, `python/checks/trace.py`,
  `python/src/ai_patch/checks/cost.py` (the `check` functions).

Files are modelled as lists of newline-stripped line strings; the file
system as an association list from path to line list.  Line numbers are
the 1-based naturals the scanners produce (`index + 1`, `node.lineno`).
-/

namespace AiPatch

/-- `a` is a leading segment of `b` (character lists). -/
def leadsL : List Char → List Char → Bool
  | [], _ => true
  | _ :: _, [] => false
  | a :: as, b :: bs => a == b && leadsL as bs

/-- `sub` occurs contiguously somewhere in `l` (character lists). -/
def containsL (sub : List Char) : List Char → Bool
  | [] => leadsL sub []
  | c :: t => leadsL sub (c :: t) || containsL sub t

/-- Python's `sub in s` substring test. -/
def strContains (s sub : String) : Bool :=
  containsL sub.data s.data

/-- Python's `s.lower()` (ASCII range, which is all the scanners use). -/
def strLower (s : String) : String :=
  String.mk (s.data.map Char.toLower)

/-- `s` ends with `post` (the name test of a `*.py` glob pattern). -/
def strEndsWith (s post : String) : Bool :=
  leadsL post.data.reverse s.data.reverse

/-- Python's `s.startswith(pre)`. -/
def strStartsWith (s pre : String) : Bool :=
  leadsL pre.data s.data

/-! ## Fixer data model (`fixer.py`, `Fix` / `FixResult` dataclasses) -/

/-- One proposed mechanical edit (`fixer.py` dataclass `Fix`). -/
structure Fix where
  file : String
  line : Nat
  type : String
  issue : String
  suggestion : String
  code : Option String := none
deriving DecidableEq, Repr

/-- One entry of the `errors` partition: the dict
`{'fix': fix, 'error': str(e)}` built in `CodeFixer.apply_fixes`. -/
structure FixError where
  fix : Fix
  error : String
deriving DecidableEq, Repr

/-- Outcome of an apply pass (`fixer.py` dataclass `FixResult`). -/
structure FixResult where
  applied : List Fix
  skipped : List Fix
  errors : List FixError
deriving DecidableEq, Repr

/-- The file system the fixer mutates: path ↦ list of lines. -/
def FileSys : Type := List (String × List String)

/-- Reading a file: first association wins (`open(fix.file, 'r')`);
`none` models `FileNotFoundError`. -/
def fsFind : FileSys → String → Option (List String)
  | [], _ => none
  | (m, ls) :: t, n => if m = n then some ls else fsFind t n

/-- Writing a file (`open(fix.file, 'w')` + `writelines`): replace the
first association, create the file if absent. -/
def fsWrite : FileSys → String → List String → FileSys
  | [], n, ls => [(n, ls)]
  | (m, old) :: t, n, ls =>
      if m = n then (n, ls) :: t else (m, old) :: fsWrite t n ls

/-- Python `list.insert(i, v)` on a line list: inserts before 0-based
index `i`, clamping to an append when `i ≥ length` (never raises). -/
def pyInsertLine (ls : List String) (i : Nat) (v : String) : List String :=
  ls.take i ++ [v] ++ ls.drop i

/-- Python `lines[line - 1] = v` for a 1-based `line : Nat`:
`line = 0` addresses index `-1` (the last line); out of range is an
`IndexError`, modelled as `none`. -/
def pySetLine (ls : List String) (line : Nat) (v : String) : Option (List String) :=
  if line = 0 then
    if ls.isEmpty then none else some (ls.set (ls.length - 1) v)
  else if line - 1 < ls.length then some (ls.set (line - 1) v) else none

/-- The line text `_apply_fix` writes:
`f'    {fix.code}  # AI Patch fix: {fix.issue}'` (newline dropped, since
lines are modelled newline-stripped). -/
def fixLineText (c issue : String) : String :=
  "    " ++ c ++ "  # AI Patch fix: " ++ issue

/-- `CodeFixer._apply_fix` (fixer.py lines 187-200): read the file,
splice per fix type (`fix.code` must also be truthy), write back.
`Except.error` carries the exception that `apply_fixes` catches. -/
def applyFix (fs : FileSys) (fx : Fix) : Except String FileSys :=
  match fsFind fs fx.file with
  | none => Except.error "FileNotFoundError"
  | some ls =>
      match fx.code with
      | some c =>
          if fx.type = "add" ∧ c ≠ "" then
            Except.ok (fsWrite fs fx.file (pyInsertLine ls fx.line (fixLineText c fx.issue)))
          else if fx.type = "modify" ∧ c ≠ "" then
            match pySetLine ls fx.line (fixLineText c fx.issue) with
            | some ls2 => Except.ok (fsWrite fs fx.file ls2)
            | none => Except.error "IndexError"
          else Except.ok (fsWrite fs fx.file ls)
      | none => Except.ok (fsWrite fs fx.file ls)

/-- `CodeFixer.apply_fixes` (fixer.py lines 67-84): iterate the fixes in
input order; in dry-run mode every fix lands in `skipped`; otherwise a
fix lands in `applied`, or in `errors` with its cause if `_apply_fix`
raised.  Returns the result together with the final file system. -/
def applyFixes (dryRun : Bool) (fs : FileSys) : List Fix → FixResult × FileSys
  | [] => (⟨[], [], []⟩, fs)
  | fx :: rest =>
      if dryRun then
        let r := applyFixes dryRun fs rest
        (⟨r.1.applied, fx :: r.1.skipped, r.1.errors⟩, r.2)
      else
        match applyFix fs fx with
        | Except.ok fs1 =>
            let r := applyFixes dryRun fs1 rest
            (⟨fx :: r.1.applied, r.1.skipped, r.1.errors⟩, r.2)
        | Except.error e =>
            let r := applyFixes dryRun fs rest
            (⟨r.1.applied, r.1.skipped, ⟨fx, e⟩ :: r.1.errors⟩, r.2)

/-! ## Source walkers (`code_scanner.py` `scan`, `fixer.py` `_find_source_files`) -/

/-- A regular file under the scan root: directory components (relative to
the root) plus the file name. -/
structure SrcFile where
  dirs : List String
  name : String
deriving DecidableEq, Repr

/-- A path component is pruned by the fixer's walk when it starts with
`'.'` or equals `'node_modules'` (fixer.py line 93). -/
def hiddenOrVendor (part : String) : Bool :=
  strStartsWith part "." || part = "node_modules"

/-- Index of the last `'.'` in a character list, if any. -/
def rfindDotAux : List Char → Nat → Option Nat → Option Nat
  | [], _, acc => acc
  | c :: t, i, acc => rfindDotAux t (i + 1) (if c = '.' then some i else acc)

/-- `pathlib.Path.suffix` of a file name: the segment from the last dot,
empty when the name has no dot, starts with its only dot, or ends in the
dot. -/
def pySuffix (name : String) : String :=
  let cs := name.data
  match rfindDotAux cs 0 none with
  | some i => if 0 < i ∧ i + 1 < cs.length then String.mk (cs.drop i) else ""
  | none => ""

/-- `CodeScanner.scan` file enumeration (code_scanner.py lines 21-28):
`glob('**/*.py')` then `glob('**/*.js')` — a name test only, with no
hidden-directory or vendor-directory pruning (pathlib's glob descends
into dot directories and `node_modules`). -/
def scannerFiles (tree : List SrcFile) : List SrcFile :=
  tree.filter (fun f => strEndsWith f.name ".py")
    ++ tree.filter (fun f => strEndsWith f.name ".js")

/-- The fixer's extension allow-list (fixer.py line 96). -/
def fixerSuffixes : List String := [".js", ".ts", ".jsx", ".tsx", ".py"]

/-- `CodeFixer._find_source_files` (fixer.py lines 86-99): walk every
item, skip any whose path has a hidden or vendor component, keep files
whose suffix is in the allow-list. -/
def findSourceFiles (tree : List SrcFile) : List SrcFile :=
  tree.filter (fun f =>
    !((f.dirs ++ [f.name]).any hiddenOrVendor) && fixerSuffixes.contains (pySuffix f.name))

/-! ## Structural analyzer (`code_scanner.py`) -/

/-- A Python literal (the payload of `ast.Constant`). -/
inductive PyLit where
  | pybool (b : Bool)
  | pyint (n : Int)
  | pystr (s : String)
  | pynone
deriving DecidableEq, Repr

/-- The fragment of Python expressions the call-name resolution and the
keyword checks inspect: `ast.Constant`, `ast.Name`, `ast.Attribute`. -/
inductive PyExpr where
  | constant (v : PyLit)
  | name (id : String)
  | attr (value : PyExpr) (a : String)
deriving DecidableEq, Repr

/-- One `ast.keyword`: `arg` is `none` for `**kwargs`. -/
structure PyKeyword where
  arg : Option String
  value : PyExpr
deriving DecidableEq, Repr

/-- An `ast.Call` node, with the source line the scanner attributes
findings to. -/
structure PyCall where
  func : PyExpr
  keywords : List PyKeyword
  lineno : Nat
deriving DecidableEq, Repr

/-- The `kwargs` dict built in `_check_python_api_call` (lines 86-89):
keywords with an `arg` are inserted in order, so the last binding wins. -/
def kwGet (kws : List PyKeyword) (k : String) : Option PyExpr :=
  kws.foldl
    (fun acc kw =>
      match kw.arg with
      | some a => if a = k then some kw.value else acc
      | none => acc)
    none

/-- Attribute-chain segments of `node.func`, leaf-last, with the root
expression (the `while isinstance(current, ast.Attribute)` walk). -/
def dottedParts : PyExpr → List String × PyExpr
  | .attr v a => let p := dottedParts v; (p.1 ++ [a], p.2)
  | e => ([], e)

/-- `CodeScanner._get_call_name` (lines 132-145). -/
def getCallName (func : PyExpr) : String :=
  match func with
  | .attr _ _ =>
      let p := dottedParts func
      let parts :=
        match p.2 with
        | .name id => id :: p.1
        | _ => p.1
      String.intercalate "." parts
  | .name id => id
  | _ => ""

/-- The in-scope test of line 82:
`'create' in call_name or 'chat' in call_name.lower()`. -/
def inScopeName (callName : String) : Bool :=
  strContains callName "create" || strContains (strLower callName) "chat"

/-- Reading the `.value` attribute of an AST node, as the literal stream
check does: `ast.Constant.value` is the wrapped Python literal,
`ast.Attribute.value` is the object expression, and `ast.Name` has no
`.value` (an `AttributeError`). -/
inductive PyAttrVal where
  | node (e : PyExpr)
  | lit (v : PyLit)
deriving DecidableEq, Repr

/-- `.value` attribute access used at code_scanner.py line 120. -/
def valueAttr : PyExpr → Option PyAttrVal
  | .constant v => some (.lit v)
  | .attr v _ => some (.node v)
  | .name _ => none

/-- One detected risk instance: the finding dict of `code_scanner.py`. -/
structure Finding where
  file : String
  line : Nat
  category : String
  severity : String
  issue : String
  message : String
  recommendation : String
  snippet : String
deriving DecidableEq, Repr

/-- `lines[line_num - 1].strip() if line_num <= len(lines) else ''`. -/
def snippetAt (lines : List String) (n : Nat) : String :=
  if n ≤ lines.length then (lines.getD (n - 1) "").trim else ""

/-- `CodeScanner._check_python_api_call` (lines 77-130).  Returns the
findings appended for this call together with a flag that is `true` when
the literal-stream check raised an `AttributeError` (the findings
already appended are kept; the exception is swallowed per file by
`_scan_python_file`). -/
def checkPythonApiCall (relPath : String) (call : PyCall) (lines : List String) :
    List Finding × Bool :=
  let callName := getCallName call.func
  if inScopeName callName then
    let ln := call.lineno
    let f1 : List Finding :=
      if (kwGet call.keywords "max_tokens").isNone then
        [⟨relPath, ln, "cost", "warning", "Missing max_tokens parameter",
          "API call without max_tokens limit can generate unlimited tokens and cause runaway costs",
          "Add max_tokens parameter (e.g., max_tokens=2048) to limit generation length",
          snippetAt lines ln⟩]
      else []
    let f2 : List Finding :=
      if (kwGet call.keywords "timeout").isNone then
        [⟨relPath, ln, "streaming", "warning", "Missing timeout parameter",
          "API call without timeout can hang indefinitely",
          "Add timeout parameter (e.g., timeout=30) to prevent indefinite hangs",
          snippetAt lines ln⟩]
      else []
    match kwGet call.keywords "stream" with
    | none => (f1 ++ f2, false)
    | some e =>
        match valueAttr e with
        | none => (f1 ++ f2, true)
        | some (.node (.constant v)) =>
            if v = PyLit.pybool true then
              (f1 ++ f2 ++
                [⟨relPath, ln, "streaming", "warning", "Streaming enabled without timeout",
                  "Streaming requests should have timeout to prevent stalls",
                  "Add timeout parameter and handle stream interruptions",
                  snippetAt lines ln⟩], false)
            else (f1 ++ f2, false)
        | some _ => (f1 ++ f2, false)
  else ([], false)

/-! ## Text pattern analyzer: the retry-loop rule -/

/-- The corroborating vocabulary of code_scanner.py line 159. -/
def retryVocab : List String := ["retry", "attempt", "error", "except"]

/-- The retry-loop rule of `_analyze_python_patterns` (lines 151-170),
at the granularity of one regex match `for <w> in range(<maxAttempts>)`:
`context` is the ±200-character window around the match. -/
def retryLoopFinding (relPath : String) (lineNum maxAttempts : Nat)
    (context : String) (lines : List String) : Option Finding :=
  if retryVocab.any (fun k => strContains (strLower context) k) then
    if maxAttempts > 10 then
      some ⟨relPath, lineNum, "retries", "error",
        "Too many retry attempts (" ++ toString maxAttempts ++ ")",
        "Retry loop with " ++ toString maxAttempts ++ " attempts can cause retry storms",
        "Limit retries to 3-5 attempts with exponential backoff",
        snippetAt lines lineNum⟩
    else none
  else none

/-! ## Check surfaces (`checks/streaming.py`, `checks/trace.py`,
`ai_patch/checks/cost.py`) -/

/-- A finding of the live checks: `{'severity': ..., 'message': ...}`. -/
structure CheckFinding where
  severity : String
  message : String
deriving DecidableEq, Repr

/-- The result dict of a `check` function (metrics omitted). -/
structure CheckResult where
  status : String
  findings : List CheckFinding
deriving DecidableEq, Repr

/-- What the streaming probe of `checks/streaming.py` observed: a
completed stream with its measured time-to-first-byte (`None` when no
chunk arrived) and maximal chunk gap, in seconds — or the exception the
`except` arms catch. -/
inductive StreamProbe where
  | success (ttfb : Option ℚ) (maxChunkGap : ℚ)
  | timedOut (msg : String)
  | httpErr (statusCode : Nat)
  | failed (msg : String)
deriving DecidableEq, Repr

/-- Decimal rendering stand-in for Python's `f'{x:.2f}'`. -/
def fmtQ (x : ℚ) : String := toString x

/-- `checks/streaming.py` `check` (lines 9-108): findings from the
measured metrics, then the status rule of lines 77-83; each `except` arm
sets `status = 'fail'` and appends one error finding. -/
def streamingCheck : StreamProbe → CheckResult
  | .success ttfb maxChunkGap =>
      let fs1 : List CheckFinding :=
        match ttfb with
        | some t =>
            if 5 < t then
              [⟨"warning", "High TTFB: " ++ fmtQ t ++ "s (>5s). Check network or proxy settings."⟩]
            else []
        | none => []
      let fs2 : List CheckFinding :=
        if 30 < maxChunkGap then
          [⟨"error", "Large chunk gap: " ++ fmtQ maxChunkGap ++
            "s (>30s). Possible SSE stall or proxy idle timeout."⟩]
        else if 10 < maxChunkGap then
          [⟨"warning", "Chunk gap: " ++ fmtQ maxChunkGap ++ "s (>10s). Monitor for potential stalls."⟩]
        else []
      let findings := fs1 ++ fs2
      let status :=
        if findings.isEmpty then "pass"
        else if findings.any (fun f => f.severity = "error") then "fail"
        else "warn"
      ⟨status, findings⟩
  | .timedOut m =>
      ⟨"fail", [⟨"error", "Streaming timeout: " ++ m ++ ". Check client timeout settings."⟩]⟩
  | .httpErr sc => ⟨"fail", [⟨"error", "HTTP error " ++ toString sc⟩]⟩
  | .failed m => ⟨"fail", [⟨"error", "Streaming check failed: " ++ m⟩]⟩

/-- What the trace probe of `checks/trace.py` observed: on success, the
provider request id found in the response headers (if any) and the
computed request hash; otherwise the caught exception's message. -/
inductive TraceProbe where
  | success (providerRequestId : Option String) (requestHash : String)
  | failed (msg : String)
deriving DecidableEq, Repr

/-- `checks/trace.py` `check` (lines 10-97): on the success path the
status is set to `'pass'` (line 84) after all findings, warning
included, have been appended. -/
def traceCheck : TraceProbe → CheckResult
  | .success pid h =>
      let f1 : List CheckFinding :=
        match pid with
        | some p => [⟨"info", "Provider request ID found: " ++ p⟩]
        | none => [⟨"warning", "No provider request ID found in response headers"⟩]
      ⟨"pass",
        f1 ++
          [⟨"info", "Generated request hash: " ++ h ++ " (for duplicate detection)"⟩,
           ⟨"info", "Always include X-Request-ID header for request correlation"⟩,
           ⟨"info", "Log request hashes to detect duplicate API calls"⟩,
           ⟨"info", "Capture provider request IDs from response headers for support tickets"⟩]⟩
  | .failed m => ⟨"fail", [⟨"error", "Trace check failed: " ++ m⟩]⟩

/-- `ai_patch/checks/cost.py` `check` (lines 7-67): a fixed finding list
(pricing metrics omitted) and the hard-coded status of line 61. -/
def costCheck (inputPrice outputPrice : ℚ) : CheckResult :=
  ⟨"warn",
    [⟨"info", "Model pricing: $" ++ fmtQ inputPrice ++ "/1M input, $" ++
        fmtQ outputPrice ++ "/1M output tokens"⟩,
     ⟨"info", "Set max_tokens cap to prevent runaway costs (e.g., max_tokens: 2000)"⟩,
     ⟨"info", "Monitor for tool/function call loops that can burn tokens quickly"⟩,
     ⟨"info", "Consider implementing per-user or per-session token budgets"⟩,
     ⟨"warning", "No prompt size validation detected. Large prompts can cause cost spikes."⟩]⟩

/-- Modelled from the spec (§4.6 Severity Aggregation): status is `fail`
if any finding has severity `error`, else `warn` if any has severity
`warning`, else `pass` — the worst-severity-wins policy the spec says
every check applies. -/
def specStatus (findings : List CheckFinding) : String :=
  if findings.any (fun f => f.severity = "error") then "fail"
  else if findings.any (fun f => f.severity = "warning") then "warn"
  else "pass"

/-- Modelled from the spec (§4.5): an add-type fix inserts the new line
immediately *before* the 1-based target line. -/
def specAddBeforeLine (ls : List String) (line : Nat) (v : String) : List String :=
  ls.take (line - 1) ++ [v] ++ ls.drop (line - 1)

/-- Concrete in-scope call `client.chat.completions.create(stream=True)`
used as a test input for the structural analyzer. -/
def demoStreamCall : PyCall :=
  ⟨.attr (.attr (.attr (.name "client") "chat") "completions") "create",
   [⟨some "stream", .constant (.pybool true)⟩], 3⟩

/-! ## Helper lemmas -/

theorem applyFixes_dryRun_eq (fs : FileSys) (fixes : List Fix) :
    applyFixes true fs fixes = (⟨[], fixes, []⟩, fs) := by
  induction fixes with
  | nil => rfl
  | cons fx rest ih => simp [applyFixes, ih]

theorem applyFixes_cons_dry (fs : FileSys) (fx : Fix) (rest : List Fix) :
    applyFixes true fs (fx :: rest) =
      (⟨(applyFixes true fs rest).1.applied, fx :: (applyFixes true fs rest).1.skipped,
        (applyFixes true fs rest).1.errors⟩, (applyFixes true fs rest).2) := by
  simp [applyFixes]

theorem applyFixes_cons_ok (fs fs1 : FileSys) (fx : Fix) (rest : List Fix)
    (h : applyFix fs fx = Except.ok fs1) :
    applyFixes false fs (fx :: rest) =
      (⟨fx :: (applyFixes false fs1 rest).1.applied, (applyFixes false fs1 rest).1.skipped,
        (applyFixes false fs1 rest).1.errors⟩, (applyFixes false fs1 rest).2) := by
  simp [applyFixes, h]

theorem applyFixes_cons_err (fs : FileSys) (fx : Fix) (rest : List Fix) (e : String)
    (h : applyFix fs fx = Except.error e) :
    applyFixes false fs (fx :: rest) =
      (⟨(applyFixes false fs rest).1.applied, (applyFixes false fs rest).1.skipped,
        ⟨fx, e⟩ :: (applyFixes false fs rest).1.errors⟩, (applyFixes false fs rest).2) := by
  simp [applyFixes, h]

theorem perm_cons_head {α : Type} (a : α) {A S M r : List α} (h : (A ++ S ++ M).Perm r) :
    ((a :: A) ++ S ++ M).Perm (a :: r) := by
  simpa using h.cons a

theorem perm_cons_mid {α : Type} (a : α) {A S M r : List α} (h : (A ++ S ++ M).Perm r) :
    (A ++ (a :: S) ++ M).Perm (a :: r) := by
  have hs : A ++ (a :: S) ++ M = A ++ a :: (S ++ M) := by simp
  rw [hs]
  have hin : (A ++ (S ++ M)).Perm r := by
    rw [← List.append_assoc]; exact h
  exact List.perm_middle.trans (hin.cons a)

theorem perm_cons_last {α : Type} (a : α) {A S M r : List α} (h : (A ++ S ++ M).Perm r) :
    (A ++ S ++ (a :: M)).Perm (a :: r) := by
  exact List.perm_middle.trans (h.cons a)

theorem fsWrite_self (fs : FileSys) (n : String) (ls : List String)
    (h : fsFind fs n = some ls) : fsWrite fs n ls = fs := by
  induction fs with
  | nil => simp [fsFind] at h
  | cons p t ih =>
      obtain ⟨m, old⟩ := p
      by_cases hm : m = n
      · subst hm
        simp [fsFind] at h
        simp [fsWrite, h]
      · simp [fsFind, hm] at h
        simp [fsWrite, hm, ih h]

/-! ## Claim theorems -/

/-- C1: `apply_fixes` does not sort a file's fixes into descending line
order — it applies them in input-list order, so two add fixes for one
file given in ascending order produce a different file than the
descending-order application the claim describes (the second insertion
lands after the line shifted by the first).  The `+k` line-count growth
does hold on both orders. -/
theorem applyFixes_input_order_not_descending :
    (applyFixes false [("app.py", ["a", "b"])]
        [⟨"app.py", 1, "add", "i1", "s1", some "X"⟩,
         ⟨"app.py", 2, "add", "i2", "s2", some "Y"⟩]).2
      = [("app.py", ["a", "    X  # AI Patch fix: i1", "    Y  # AI Patch fix: i2", "b"])]
    ∧ (applyFixes false [("app.py", ["a", "b"])]
        [⟨"app.py", 2, "add", "i2", "s2", some "Y"⟩,
         ⟨"app.py", 1, "add", "i1", "s1", some "X"⟩]).2
      = [("app.py", ["a", "    X  # AI Patch fix: i1", "b", "    Y  # AI Patch fix: i2"])]
    ∧ (["a", "    X  # AI Patch fix: i1", "    Y  # AI Patch fix: i2", "b"] : List String)
      ≠ ["a", "    X  # AI Patch fix: i1", "b", "    Y  # AI Patch fix: i2"] := by
  refine ⟨rfl, rfl, by decide⟩

/-- C5: on an in-scope call carrying the literal keyword `stream=True`
and no `timeout`, `_check_python_api_call` emits the missing-max-tokens
and missing-timeout findings but never the streaming-without-timeout
finding: line 120 tests `isinstance(kwargs['stream'].value, ast.Constant)`,
and for `stream=True` that `.value` is the Python literal `True`, not an
`ast.Constant` node, so the branch can never fire on a literal. -/
theorem stream_literal_true_never_flagged :
    inScopeName (getCallName demoStreamCall.func) = true
    ∧ kwGet demoStreamCall.keywords "stream" = some (.constant (.pybool true))
    ∧ kwGet demoStreamCall.keywords "timeout" = none
    ∧ ((checkPythonApiCall "app.py" demoStreamCall []).1.map Finding.issue
        = ["Missing max_tokens parameter", "Missing timeout parameter"])
    ∧ (((checkPythonApiCall "app.py" demoStreamCall []).1.map Finding.issue).contains
        "Streaming enabled without timeout") = false
    ∧ (checkPythonApiCall "app.py" demoStreamCall []).2 = false := by
  refine ⟨by decide, rfl, rfl, by decide, by decide, rfl⟩

/-- C7 counterexample: a call resolving to `Client.Create` contains
`create` case-insensitively, yet it is not in scope — line 82 tests
`'create' in call_name` without lowering the name. -/
theorem inScopeName_case_sensitive_create :
    getCallName (.attr (.name "Client") "Create") = "Client.Create"
    ∧ strContains (strLower "Client.Create") "create" = true
    ∧ inScopeName "Client.Create" = false := by
  refine ⟨rfl, by decide, by decide⟩

/-- C7 amended: `create` is matched case-sensitively and only `chat`
case-insensitively; the claim's fully case-insensitive rule holds
exactly for names that are already lower case. -/
theorem inScopeName_lower_agrees (name : String) (h : strLower name = name) :
    inScopeName name = (strContains name "create" || strContains name "chat") := by
  unfold inScopeName
  rw [h]

/-- Witness for `inScopeName_lower_agrees` at `client.chat`. -/
theorem inScopeName_lower_agrees_witness :
    strLower "client.chat" = "client.chat"
    ∧ inScopeName "client.chat"
        = (strContains "client.chat" "create" || strContains "client.chat" "chat") :=
  ⟨by decide, inScopeName_lower_agrees "client.chat" (by decide)⟩

/-- C8: a dry-run apply pass of a non-empty fix list mutates no file
content and puts the whole input list, in order, into `skipped`, with
`applied` and `errors` empty. -/
theorem dryRun_all_skipped (fs : FileSys) (fixes : List Fix) (_hne : fixes ≠ []) :
    applyFixes true fs fixes = (⟨[], fixes, []⟩, fs) :=
  applyFixes_dryRun_eq fs fixes

/-- Witness for `dryRun_all_skipped` on a one-fix list. -/
theorem dryRun_all_skipped_witness :
    ([⟨"app.py", 1, "add", "i", "s", some "X"⟩] : List Fix) ≠ []
    ∧ applyFixes true [("app.py", ["a"])] [⟨"app.py", 1, "add", "i", "s", some "X"⟩]
        = (⟨[], [⟨"app.py", 1, "add", "i", "s", some "X"⟩], []⟩, [("app.py", ["a"])]) :=
  ⟨by simp, dryRun_all_skipped [("app.py", ["a"])] [⟨"app.py", 1, "add", "i", "s", some "X"⟩]
    (by simp)⟩

/-- C10: in apply mode, a fix of type `remove`, or one whose `code` is
`None`, falls through both edit branches of `_apply_fix`: the file is
rewritten with its own lines (content unchanged), no exception is
raised, and `apply_fixes` reports the fix as `applied`. -/
theorem remove_or_codeless_fix_noop_applied (fs : FileSys) (fx : Fix) (ls : List String)
    (h : fx.type = "remove" ∨ fx.code = none) (hfind : fsFind fs fx.file = some ls) :
    applyFix fs fx = Except.ok fs
    ∧ applyFixes false fs [fx] = (⟨[fx], [], []⟩, fs) := by
  have hok : applyFix fs fx = Except.ok fs := by
    rcases hc : fx.code with _ | c
    · simp [applyFix, hfind, hc, fsWrite_self fs fx.file ls hfind]
    · have htype : fx.type = "remove" := by
        rcases h with h | h
        · exact h
        · rw [hc] at h; exact absurd h (by simp)
      simp [applyFix, hfind, hc, htype, fsWrite_self fs fx.file ls hfind]
  refine ⟨hok, ?_⟩
  simp [applyFixes, hok]

/-- Witness for `remove_or_codeless_fix_noop_applied` on a remove fix. -/
theorem remove_or_codeless_fix_noop_applied_witness :
    ((⟨"f.py", 2, "remove", "i", "s", some "X"⟩ : Fix).type = "remove"
      ∨ (⟨"f.py", 2, "remove", "i", "s", some "X"⟩ : Fix).code = none)
    ∧ fsFind [("f.py", ["a", "b"])] "f.py" = some ["a", "b"]
    ∧ applyFix [("f.py", ["a", "b"])] ⟨"f.py", 2, "remove", "i", "s", some "X"⟩
        = Except.ok [("f.py", ["a", "b"])]
    ∧ applyFixes false [("f.py", ["a", "b"])] [⟨"f.py", 2, "remove", "i", "s", some "X"⟩]
        = (⟨[⟨"f.py", 2, "remove", "i", "s", some "X"⟩], [], []⟩, [("f.py", ["a", "b"])]) := by
  refine ⟨Or.inl rfl, rfl, ?_⟩
  have := remove_or_codeless_fix_noop_applied [("f.py", ["a", "b"])]
    ⟨"f.py", 2, "remove", "i", "s", some "X"⟩ ["a", "b"] (Or.inl rfl) rfl
  exact this

/-- C6: for a bounded-iteration match with retry vocabulary in its
context window, the text-pattern rule emits a finding iff the bound
exceeds 10, and any emitted finding is the severity-`error`, category
`retries`, too-many-retry-attempts finding. -/
theorem retryLoopFinding_iff_bound_gt_ten (relPath : String) (lineNum maxAttempts : Nat)
    (context : String) (lines : List String)
    (hvocab : retryVocab.any (fun k => strContains (strLower context) k) = true) :
    ((retryLoopFinding relPath lineNum maxAttempts context lines).isSome ↔ 10 < maxAttempts)
    ∧ ∀ fnd, retryLoopFinding relPath lineNum maxAttempts context lines = some fnd →
        fnd.severity = "error" ∧ fnd.category = "retries"
          ∧ fnd.issue = "Too many retry attempts (" ++ toString maxAttempts ++ ")" := by
  constructor
  · by_cases hb : 10 < maxAttempts <;>
      simp [retryLoopFinding, hvocab, hb]
  · intro fnd hf
    by_cases hb : 10 < maxAttempts
    · simp [retryLoopFinding, hvocab, hb] at hf
      subst hf
      exact ⟨rfl, rfl, rfl⟩
    · simp [retryLoopFinding, hvocab, hb] at hf

/-- Witness for `retryLoopFinding_iff_bound_gt_ten` on a 15-iteration
loop with `retry` in the window. -/
theorem retryLoopFinding_iff_bound_gt_ten_witness :
    retryVocab.any (fun k => strContains (strLower "for attempt in RANGE # Retry on error") k) = true
    ∧ ((retryLoopFinding "f.py" 3 15 "for attempt in RANGE # Retry on error" []).isSome
        ↔ 10 < 15) :=
  ⟨by decide,
   (retryLoopFinding_iff_bound_gt_ten "f.py" 3 15 "for attempt in RANGE # Retry on error" []
     (by decide)).1⟩

/-- C9: every input fix lands in exactly one of `applied`, `skipped`,
`errors` (the three partitions together are a permutation of the input,
so nothing is dropped or duplicated even when a fix fails mid-batch),
and every `errors` entry pairs its originating fix with the message of
the exception `_apply_fix` raised on it. -/
theorem applyFixes_partitions_input (dryRun : Bool) (fs : FileSys) (fixes : List Fix) :
    ((applyFixes dryRun fs fixes).1.applied ++ (applyFixes dryRun fs fixes).1.skipped
        ++ (applyFixes dryRun fs fixes).1.errors.map FixError.fix).Perm fixes
    ∧ ∀ e ∈ (applyFixes dryRun fs fixes).1.errors,
        ∃ g, applyFix g e.fix = Except.error e.error := by
  induction fixes generalizing fs with
  | nil => simp [applyFixes]
  | cons fx rest ih =>
      cases dryRun with
      | true =>
          have h := ih fs
          rw [applyFixes_cons_dry]
          exact ⟨perm_cons_mid fx h.1, h.2⟩
      | false =>
          cases hap : applyFix fs fx with
          | ok fs1 =>
              have h := ih fs1
              rw [applyFixes_cons_ok fs fs1 fx rest hap]
              exact ⟨perm_cons_head fx h.1, h.2⟩
          | error e =>
              have h := ih fs
              rw [applyFixes_cons_err fs fx rest e hap]
              refine ⟨perm_cons_last fx h.1, ?_⟩
              intro er her
              rcases List.mem_cons.mp her with her | her
              · exact ⟨fs, by rw [her]; exact hap⟩
              · exact h.2 er her

/-- Witness for `applyFixes_partitions_input` on a two-fix batch whose
second fix targets a missing file: the applied fix and the errored fix
together are a permutation of the input. -/
theorem applyFixes_partitions_input_witness :
    ((applyFixes false [("f.py", ["a"])]
        [⟨"f.py", 1, "add", "i1", "s1", some "X"⟩,
         ⟨"ghost.py", 1, "add", "i2", "s2", some "Y"⟩]).1.applied
      ++ (applyFixes false [("f.py", ["a"])]
        [⟨"f.py", 1, "add", "i1", "s1", some "X"⟩,
         ⟨"ghost.py", 1, "add", "i2", "s2", some "Y"⟩]).1.skipped
      ++ ((applyFixes false [("f.py", ["a"])]
        [⟨"f.py", 1, "add", "i1", "s1", some "X"⟩,
         ⟨"ghost.py", 1, "add", "i2", "s2", some "Y"⟩]).1.errors.map FixError.fix)).Perm
      [⟨"f.py", 1, "add", "i1", "s1", some "X"⟩,
       ⟨"ghost.py", 1, "add", "i2", "s2", some "Y"⟩] :=
  (applyFixes_partitions_input false [("f.py", ["a"])]
    [⟨"f.py", 1, "add", "i1", "s1", some "X"⟩,
     ⟨"ghost.py", 1, "add", "i2", "s2", some "Y"⟩]).1

/-- C2 counterexample: on a successful trace probe with no provider
request id in the response headers, the trace check's findings contain a
`warning`, yet its status is the hard-coded `pass` of line 84 — not the
`warn` the shared worst-severity-wins policy prescribes. -/
theorem traceCheck_pass_despite_warning :
    (traceCheck (.success none "2f5a1c90d3b44e71")).status = "pass"
    ∧ ((traceCheck (.success none "2f5a1c90d3b44e71")).findings.any
        (fun f => f.severity = "warning")) = true
    ∧ specStatus (traceCheck (.success none "2f5a1c90d3b44e71")).findings = "warn"
    ∧ (traceCheck (.success none "2f5a1c90d3b44e71")).status
        ≠ specStatus (traceCheck (.success none "2f5a1c90d3b44e71")).findings := by
  refine ⟨rfl, by decide, rfl, by decide⟩

/-- C2 amended: the streaming check computes its status from its local
findings by the worst-severity-wins rule on every probe outcome, and the
cost check's hard-coded `warn` agrees with the rule on its fixed finding
list; but the trace check does not apply the rule — a successful probe
with a warning finding still reports `pass`. -/
theorem status_policy_per_check :
    (∀ p : StreamProbe, (streamingCheck p).status = specStatus (streamingCheck p).findings)
    ∧ (∀ ip op : ℚ, (costCheck ip op).status = specStatus (costCheck ip op).findings)
    ∧ (traceCheck (.success none "h")).status
        ≠ specStatus (traceCheck (.success none "h")).findings := by
  refine ⟨?_, ?_, by decide⟩
  · intro p
    cases p with
    | success ttfb gap =>
        cases ttfb with
        | none =>
            by_cases h30 : (30 : ℚ) < gap
            · simp [streamingCheck, specStatus, h30]
            · by_cases h10 : (10 : ℚ) < gap <;>
                simp [streamingCheck, specStatus, h30, h10]
        | some t =>
            by_cases h5 : (5 : ℚ) < t
            · by_cases h30 : (30 : ℚ) < gap
              · simp [streamingCheck, specStatus, h5, h30]
              · by_cases h10 : (10 : ℚ) < gap <;>
                  simp [streamingCheck, specStatus, h5, h30, h10]
            · by_cases h30 : (30 : ℚ) < gap
              · simp [streamingCheck, specStatus, h5, h30]
              · by_cases h10 : (10 : ℚ) < gap <;>
                  simp [streamingCheck, specStatus, h5, h30, h10]
    | timedOut m => simp [streamingCheck, specStatus]
    | httpErr sc => simp [streamingCheck, specStatus]
    | failed m => simp [streamingCheck, specStatus]
  · intro ip op
    simp [costCheck, specStatus]

/-- C3 counterexample: the scanner's file walk (`glob('**/*.py')`)
enumerates a Python file inside `node_modules` — pathlib's glob prunes
neither hidden nor vendor directories. -/
theorem scannerFiles_includes_vendor_dir :
    scannerFiles [⟨["node_modules"], "a.py"⟩] = [⟨["node_modules"], "a.py"⟩]
    ∧ hiddenOrVendor "node_modules" = true := by
  refine ⟨rfl, rfl⟩

/-- C3 amended: the hidden/vendor exclusion holds for the fixer's walk,
which returns exactly the files with an allow-listed suffix and no
hidden or vendor path component; the scanner's walk returns exactly the
files whose name matches `*.py` or `*.js`, with no such exclusion. -/
theorem walk_enumeration_characterization :
    (∀ (tree : List SrcFile) (f : SrcFile),
        f ∈ findSourceFiles tree ↔
          f ∈ tree ∧ (f.dirs ++ [f.name]).any hiddenOrVendor = false
            ∧ pySuffix f.name ∈ fixerSuffixes)
    ∧ (∀ (tree : List SrcFile) (f : SrcFile),
        f ∈ scannerFiles tree ↔
          f ∈ tree ∧ (strEndsWith f.name ".py" = true ∨ strEndsWith f.name ".js" = true)) := by
  constructor
  · intro tree f
    simp [findSourceFiles, List.mem_filter, List.elem_eq_mem, and_assoc]
  · intro tree f
    simp [scannerFiles, List.mem_append, List.mem_filter]
    tauto

/-- C4 counterexample: `lines.insert(fix.line, ...)` inserts at 0-based
index `fix.line`, which is immediately *after* the 1-based target line,
not before it as the claim states: on `["a","b","c"]` with target line
2 the new line lands between `b` and `c`, while insertion before the
target line would put it between `a` and `b`. -/
theorem applyFix_add_inserts_after_not_before :
    applyFix [("f.py", ["a", "b", "c"])] ⟨"f.py", 2, "add", "iss", "sg", some "X"⟩
      = Except.ok [("f.py", ["a", "b", fixLineText "X" "iss", "c"])]
    ∧ specAddBeforeLine ["a", "b", "c"] 2 (fixLineText "X" "iss")
      = ["a", fixLineText "X" "iss", "b", "c"]
    ∧ (["a", "b", fixLineText "X" "iss", "c"] : List String)
      ≠ ["a", fixLineText "X" "iss", "b", "c"] := by
  refine ⟨rfl, rfl, by decide⟩

/-- C4 amended: an applied add-type fix carrying non-empty code inserts
exactly one new line (total length grows by one) immediately *after* the
1-based target line — the first `fix.line` lines keep their positions —
and the inserted line ends in the inline annotation
`# AI Patch fix: <issue>` identifying the rule that produced the fix. -/
theorem applyFix_add_inserts_after_target (fs : FileSys) (ls : List String) (fx : Fix)
    (c : String) (htype : fx.type = "add") (hcode : fx.code = some c) (hc : c ≠ "")
    (hfind : fsFind fs fx.file = some ls) (hline : fx.line ≤ ls.length) :
    applyFix fs fx
      = Except.ok (fsWrite fs fx.file
          (ls.take fx.line ++ [fixLineText c fx.issue] ++ ls.drop fx.line))
    ∧ (ls.take fx.line ++ [fixLineText c fx.issue] ++ ls.drop fx.line).length = ls.length + 1
    ∧ ∃ pre, fixLineText c fx.issue = pre ++ "# AI Patch fix: " ++ fx.issue := by
  refine ⟨?_, ?_, ?_⟩
  · simp [applyFix, hfind, hcode, htype, hc, pyInsertLine]
  · simp only [List.length_append, List.length_take, List.length_drop, List.length_cons,
      List.length_nil]
    omega
  · refine ⟨"    " ++ c ++ "  ", ?_⟩
    simp [fixLineText, String.append_assoc]

/-- Witness for `applyFix_add_inserts_after_target` on a three-line file
with target line 2. -/
theorem applyFix_add_inserts_after_target_witness :
    fsFind [("f.py", ["a", "b", "c"])] "f.py" = some ["a", "b", "c"]
    ∧ 2 ≤ (["a", "b", "c"] : List String).length
    ∧ (applyFix [("f.py", ["a", "b", "c"])] ⟨"f.py", 2, "add", "iss", "sg", some "X"⟩
        = Except.ok (fsWrite [("f.py", ["a", "b", "c"])] "f.py"
            ((["a", "b", "c"] : List String).take 2 ++ [fixLineText "X" "iss"]
              ++ (["a", "b", "c"] : List String).drop 2))
      ∧ ((["a", "b", "c"] : List String).take 2 ++ [fixLineText "X" "iss"]
          ++ (["a", "b", "c"] : List String).drop 2).length
          = (["a", "b", "c"] : List String).length + 1
      ∧ ∃ pre, fixLineText "X" "iss" = pre ++ "# AI Patch fix: " ++ "iss") :=
  ⟨rfl, by decide,
   applyFix_add_inserts_after_target [("f.py", ["a", "b", "c"])] ["a", "b", "c"]
     ⟨"f.py", 2, "add", "iss", "sg", some "X"⟩ "X" rfl rfl (by decide) rfl (by decide)⟩

end AiPatch
